import Mathlib

/-!
Verification of the console chatbot's retry wrapper and interaction loop
(`Chatbot.py`).

The remote operation `chat_session.send_message(user_message)` is modelled as
a function `op : Nat → Except ε α`: `op i` is the behaviour of the `i`-th
invocation (0-based) — `Except.error e` when that invocation raises the
exception `e`, `Except.ok r` when it returns the response `r`.

`call_api_with_backoff` runs `for i in range(max_retries)`; we embed this as
structural recursion over the Python range list `pyRange max_retries`,
threading the current `delay` exactly as the source does (`delay *= 2` after
each sleep).  The returned `BackoffTrace` records the observable behaviour:
the outcome (a returned response, a propagated exception, or the fall-through
`return None` of line 71), the number of invocations of the operation, and
the list of delays passed to `time.sleep`, in order.
-/

/-- Outcome of `call_api_with_backoff`: a returned response (`return response`,
line 60), a re-raised exception (`raise`, line 70), or the fall-through
`return None` of line 71. -/
inductive BackoffOutcome (ε α : Type) where
  | success (r : α)
  | raised (e : ε)
  | noneReturned
deriving DecidableEq

/-- Observable trace of one call of `call_api_with_backoff`: its outcome, the
number of invocations of the remote operation, and the delays slept (arguments
of `time.sleep`, line 66), in order. -/
structure BackoffTrace (ε α : Type) where
  outcome : BackoffOutcome ε α
  calls : Nat
  sleeps : List Int
deriving DecidableEq

/-- Python `range(n)` for a possibly negative bound `n`, as the list of
iteration indices: empty when `n ≤ 0`. -/
def pyRange (n : Int) : List Nat :=
  List.range n.toNat

/-- Body of the `for i in range(max_retries)` loop of `call_api_with_backoff`
(lines 56-71), recursing over the remaining iteration indices.  For index `i`:
invoke the operation; on success return the response (calls := 1, no sleep);
on an exception, if `i < max_retries - 1` sleep `delay`, double the delay and
continue with the next index, else re-raise.  An exhausted index list is the
normal loop exit, `return None` (line 71). -/
def backoffLoop (op : Nat → Except ε α) (max_retries : Int) (delay : Int) :
    List Nat → BackoffTrace ε α
  | [] => ⟨.noneReturned, 0, []⟩
  | i :: rest =>
    match op i with
    | .ok response => ⟨.success response, 1, []⟩
    | .error e =>
      if (i : Int) < max_retries - 1 then
        let t := backoffLoop op max_retries (delay * 2) rest
        ⟨t.outcome, t.calls + 1, delay :: t.sleeps⟩
      else
        ⟨.raised e, 1, []⟩

/-- `call_api_with_backoff(chat_session, user_message, max_retries,
initial_delay)` (lines 42-71): `delay = initial_delay`, then the retry loop
over `range(max_retries)`.  The session and message are absorbed into `op`. -/
def call_api_with_backoff (op : Nat → Except ε α) (max_retries : Int)
    (initial_delay : Int) : BackoffTrace ε α :=
  backoffLoop op max_retries initial_delay (pyRange max_retries)

/-- The list `[d, 2d, 4d, ...]` of `n` doubling delays starting from `d`:
the shape of the sleep sequence produced by the retry loop. -/
def geomDelays (d : Int) : Nat → List Int
  | 0 => []
  | n + 1 => d :: geomDelays (d * 2) n

/-!
Model of the interaction loop of `run_chatbot` (lines 92-123).  A line read
from stdin is a `List Char`.  One loop iteration strips the line
(`input("You: ").strip()`, line 93), checks the lowercased input against the
exit keywords (line 96), checks for emptiness (line 101), and otherwise calls
`call_api_with_backoff(chat, user_input)` with the default arguments
`max_retries=5, initial_delay=1` (line 108), breaking the loop when the call
raises (lines 119-123).
-/

/-- Whitespace for Python `str.strip()`, restricted to the ASCII whitespace
characters. -/
def isPySpace (c : Char) : Bool :=
  c == ' ' || c == '\t' || c == '\n' || c == '\r' || c == '\x0b' || c == '\x0c'

/-- Python `s.strip()`: remove leading and trailing whitespace. -/
def pyStrip (s : List Char) : List Char :=
  (((s.dropWhile isPySpace).reverse).dropWhile isPySpace).reverse

/-- Python `s.lower()` on the characters of `s`. -/
def pyLower (s : List Char) : List Char :=
  s.map Char.toLower

/-- What one iteration of the `while True` loop decides before any remote
call: break at an exit keyword (lines 96-98), continue on empty input
(lines 101-103), or proceed to the API call with the stripped input
(line 108). -/
inductive LoopAction where
  | exitLoop
  | continueLoop
  | invokeApi (msg : List Char)
deriving DecidableEq

/-- The local decision of one loop iteration of `run_chatbot` on the input
`line` (lines 93-103): strip, test the lowercased input against
`['exit', 'quit']`, test for emptiness. -/
def loopStep (line : List Char) : LoopAction :=
  if pyLower (pyStrip line) = "exit".data ∨
      pyLower (pyStrip line) = "quit".data then
    .exitLoop
  else if pyStrip line = [] then
    .continueLoop
  else
    .invokeApi (pyStrip line)

/-- How one full loop iteration of `run_chatbot` ends: break at an exit
keyword, continue after empty input, continue after a reply (lines 111-117,
whether or not the response had text), or break after the API call raised
(lines 119-123). -/
inductive IterAction where
  | exitKeyword
  | emptyContinue
  | replyContinue
  | errorBreak
deriving DecidableEq

/-- Observable trace of one full loop iteration of `run_chatbot`: how it
ends, how many times the remote operation was invoked, and the delays
slept. -/
structure IterTrace where
  action : IterAction
  calls : Nat
  sleeps : List Int
deriving DecidableEq

/-- One full iteration of the interaction loop of `run_chatbot` (lines
92-123) on the input `line`, with the remote operation `op`: the local
decision of `loopStep`, then — only in the `invokeApi` case — the call
`call_api_with_backoff(chat, user_input)` with the source's default
arguments `max_retries=5, initial_delay=1`; a raised exception is caught at
line 119 and breaks the loop, any returned value continues it. -/
def runChatbotIteration (op : Nat → Except ε α) (line : List Char) :
    IterTrace :=
  match loopStep line with
  | .exitLoop => ⟨.exitKeyword, 0, []⟩
  | .continueLoop => ⟨.emptyContinue, 0, []⟩
  | .invokeApi _ =>
    match (call_api_with_backoff op 5 1).outcome with
    | .success _ =>
      ⟨.replyContinue, (call_api_with_backoff op 5 1).calls,
        (call_api_with_backoff op 5 1).sleeps⟩
    | .noneReturned =>
      ⟨.replyContinue, (call_api_with_backoff op 5 1).calls,
        (call_api_with_backoff op 5 1).sleeps⟩
    | .raised _ =>
      ⟨.errorBreak, (call_api_with_backoff op 5 1).calls,
        (call_api_with_backoff op 5 1).sleeps⟩

/-- Concrete operation that raises on every invocation. -/
def opAlwaysFails : Nat → Except Nat Nat := fun i => Except.error i

/-- Concrete operation that raises on the first two invocations and returns
`42` afterwards. -/
def opFailsTwice : Nat → Except Nat Nat := fun i =>
  if i < 2 then Except.error i else Except.ok 42

/-- Concrete operation that returns `7` immediately. -/
def opImmediate : Nat → Except Nat Nat := fun _ => Except.ok 7

/-!
General lemmas about the retry loop, the sleep sequence, and the stripped
input, from which the individual claims follow.
-/

/-- The sum of `n` doubling delays starting from `d` is `d * (2 ^ n - 1)`. -/
lemma geomDelays_sum (n : Nat) : ∀ d : Int, (geomDelays d n).sum = d * (2 ^ n - 1) := by
  induction n with
  | zero => intro d; simp [geomDelays]
  | succ m ih =>
    intro d
    simp only [geomDelays, List.sum_cons, ih (d * 2), pow_succ]
    ring

/-- The `j`-th of `n` doubling delays starting from `d` is `d * 2 ^ j`. -/
lemma geomDelays_getElem (n : Nat) : ∀ d : Int, ∀ j < n,
    (geomDelays d n)[j]? = some (d * 2 ^ j) := by
  induction n with
  | zero => intro d j hj; omega
  | succ m ih =>
    intro d j hj
    match j with
    | 0 => simp [geomDelays]
    | j + 1 =>
      have := ih (d * 2) j (by omega)
      simp only [geomDelays, List.getElem?_cons_succ, this, pow_succ]
      congr 1
      ring

/-- Unfolding of the loop body when the invocation at index `i` returns. -/
lemma backoffLoop_ok (op : Nat → Except ε α) (R d : Int) (i : Nat)
    (rest : List Nat) (r : α) (hi : op i = .ok r) :
    backoffLoop op R d (i :: rest) = ⟨.success r, 1, []⟩ := by
  simp [backoffLoop, hi]

/-- Unfolding of the loop body when the invocation at index `i` raises and
`i < max_retries - 1`: sleep `d`, double the delay, continue. -/
lemma backoffLoop_error_retry (op : Nat → Except ε α) (R d : Int) (i : Nat)
    (rest : List Nat) (e : ε) (hi : op i = .error e)
    (hguard : (i : Int) < R - 1) :
    backoffLoop op R d (i :: rest) =
      ⟨(backoffLoop op R (d * 2) rest).outcome,
       (backoffLoop op R (d * 2) rest).calls + 1,
       d :: (backoffLoop op R (d * 2) rest).sleeps⟩ := by
  simp [backoffLoop, hi, hguard]

/-- Unfolding of the loop body when the invocation at index `i` raises and
`i ≥ max_retries - 1`: re-raise. -/
lemma backoffLoop_error_raise (op : Nat → Except ε α) (R d : Int) (i : Nat)
    (rest : List Nat) (e : ε) (hi : op i = .error e)
    (hguard : ¬ ((i : Int) < R - 1)) :
    backoffLoop op R d (i :: rest) = ⟨.raised e, 1, []⟩ := by
  simp [backoffLoop, hi, hguard]

/-- If every invocation of the operation raises, the retry loop over the
iteration indices `i, i+1, ..., i+n-1` (with `i+n = max_retries`, so these
are the remaining indices of `range(max_retries)`) invokes the operation
once per index, sleeps the doubling delays, and re-raises the exception of
the final invocation. -/
lemma backoffLoop_allFail (op : Nat → Except ε α) (err : Nat → ε)
    (hop : ∀ j, op j = .error (err j)) (R : Int) :
    ∀ n, 1 ≤ n → ∀ i, ∀ d : Int, ((i + n : Nat) : Int) = R →
      backoffLoop op R d (List.range' i n) =
        ⟨.raised (err (i + n - 1)), n, geomDelays d (n - 1)⟩ := by
  intro n
  induction n with
  | zero => omega
  | succ m ih =>
    intro _ i d hR
    match m, ih with
    | 0, _ =>
      have hguard : ¬ ((i : Int) < R - 1) := by push_cast at hR ⊢; omega
      have hcons : List.range' i 1 = i :: List.range' (i + 1) 0 := rfl
      rw [hcons, backoffLoop_error_raise op R d i _ (err i) (hop i) hguard]
      simp [geomDelays]
    | m + 1, ih =>
      have hguard : (i : Int) < R - 1 := by push_cast at hR ⊢; omega
      have hrec := ih (by omega) (i + 1) (d * 2) (by push_cast at hR ⊢; omega)
      have hcons : List.range' i (m + 1 + 1) = i :: List.range' (i + 1) (m + 1) := rfl
      rw [hcons, backoffLoop_error_retry op R d i _ (err i) (hop i) hguard, hrec]
      have h1 : i + 1 + (m + 1) - 1 = i + (m + 1 + 1) - 1 := by omega
      rw [h1]
      simp [geomDelays]

/-- If the operation raises at the indices `i, ..., i+n-1` and returns at
index `i+n`, with `i+n < max_retries`, the retry loop started at index `i`
with at least `n+1` remaining indices invokes the operation `n+1` times,
sleeps `n` doubling delays, and returns the response of the last
invocation. -/
lemma backoffLoop_succeeds (op : Nat → Except ε α) (err : Nat → ε) (r : α)
    (R : Int) :
    ∀ n, ∀ i, ∀ d : Int, ∀ L,
      (∀ j, i ≤ j → j < i + n → op j = .error (err j)) →
      op (i + n) = .ok r → ((i + n : Nat) : Int) < R → n < L →
      backoffLoop op R d (List.range' i L) =
        ⟨.success r, n + 1, geomDelays d n⟩ := by
  intro n
  induction n with
  | zero =>
    intro i d L _ hok _ hL
    match L, hL with
    | L + 1, _ =>
      have hcons : List.range' i (L + 1) = i :: List.range' (i + 1) L := rfl
      rw [hcons, backoffLoop_ok op R d i _ r (by simpa using hok)]
      simp [geomDelays]
  | succ m ih =>
    intro i d L hfail hok hR hL
    match L, hL with
    | L + 1, hL =>
      have hguard : (i : Int) < R - 1 := by push_cast at hR ⊢; omega
      have hcons : List.range' i (L + 1) = i :: List.range' (i + 1) L := rfl
      have hrec := ih (i + 1) (d * 2) L
        (fun j h1 h2 => hfail j (by omega) (by omega))
        (by have : i + 1 + m = i + (m + 1) := by omega
            rw [this]; exact hok)
        (by push_cast at hR ⊢; omega) (by omega)
      rw [hcons,
        backoffLoop_error_retry op R d i _ (err i)
          (hfail i (by omega) (by omega)) hguard,
        hrec]
      simp [geomDelays]

/-- Whatever the operation does, the `j`-th delay slept by the retry loop
started with delay `d` is `d * 2 ^ j`. -/
lemma backoffLoop_sleeps_getElem (op : Nat → Except ε α) (R : Int) :
    ∀ l : List Nat, ∀ d : Int, ∀ j,
      j < (backoffLoop op R d l).sleeps.length →
      (backoffLoop op R d l).sleeps[j]? = some (d * 2 ^ j) := by
  intro l
  induction l with
  | nil => intro d j hj; simp [backoffLoop] at hj
  | cons i rest ih =>
    intro d j hj
    match hop : op i with
    | .ok r =>
      rw [backoffLoop_ok op R d i rest r hop] at hj
      simp at hj
    | .error e =>
      by_cases hguard : (i : Int) < R - 1
      · rw [backoffLoop_error_retry op R d i rest e hop hguard] at hj ⊢
        match j with
        | 0 => simp
        | j + 1 =>
          simp only [List.length_cons] at hj
          have := ih (d * 2) j (by omega)
          simp only [List.getElem?_cons_succ, this, pow_succ]
          congr 1
          ring
      · rw [backoffLoop_error_raise op R d i rest e hop hguard] at hj
        simp at hj


/-- If the operation raises at the indices `i, ..., i+m-1` and
`i + m ≤ max_retries - 1`, the retry loop started at index `i` with at
least `m` remaining indices sleeps at least `m` times. -/
lemma backoffLoop_sleeps_length (op : Nat → Except ε α) (err : Nat → ε)
    (R : Int) :
    ∀ m, ∀ i, ∀ d : Int, ∀ L,
      (∀ j, i ≤ j → j < i + m → op j = .error (err j)) →
      ((i + m : Nat) : Int) ≤ R - 1 → m ≤ L →
      m ≤ (backoffLoop op R d (List.range' i L)).sleeps.length := by
  intro m
  induction m with
  | zero => intro i d L _ _ _; omega
  | succ m ih =>
    intro i d L hfail hR hL
    match L, hL with
    | L + 1, hL =>
      have hguard : (i : Int) < R - 1 := by push_cast at hR ⊢; omega
      have hcons : List.range' i (L + 1) = i :: List.range' (i + 1) L := rfl
      rw [hcons,
        backoffLoop_error_retry op R d i _ (err i)
          (hfail i (by omega) (by omega)) hguard]
      have hrec := ih (i + 1) (d * 2) L
        (fun j h1 h2 => hfail j (by omega) (by omega))
        (by push_cast at hR ⊢; omega) (by omega)
      simp only [List.length_cons]
      omega

/-!
Lemmas about `pyStrip` and the loop decision.
-/

/-- A list with no whitespace character is unchanged by `dropWhile
isPySpace`. -/
lemma dropWhile_eq_self_of_noSpace (l : List Char)
    (h : ∀ c ∈ l, isPySpace c = false) :
    l.dropWhile isPySpace = l := by
  cases l with
  | nil => rfl
  | cons a l => simp [List.dropWhile_cons, h a (List.mem_cons_self a l)]

/-- A line consisting only of whitespace strips to the empty string. -/
lemma pyStrip_allSpace (line : List Char)
    (h : ∀ c ∈ line, isPySpace c = true) :
    pyStrip line = [] := by
  unfold pyStrip
  rw [List.dropWhile_eq_nil_iff.mpr h]
  rfl

/-- A line with no whitespace character is unchanged by `strip()`. -/
lemma pyStrip_eq_self_of_noSpace (line : List Char)
    (h : ∀ c ∈ line, isPySpace c = false) :
    pyStrip line = line := by
  unfold pyStrip
  rw [dropWhile_eq_self_of_noSpace line h,
    dropWhile_eq_self_of_noSpace line.reverse
      (fun c hc => h c (List.mem_reverse.mp hc)),
    List.reverse_reverse]

/-- Whitespace characters are fixed by `Char.toLower`. -/
lemma isPySpace_toLower_fix (c : Char) (h : isPySpace c = true) :
    c.toLower = c := by
  simp only [isPySpace, Bool.or_eq_true, beq_iff_eq] at h
  rcases h with ((((rfl | rfl) | rfl) | rfl) | rfl) | rfl <;> decide

/-- A character whose lowercase form is a letter of an exit keyword is not
whitespace. -/
lemma noSpace_of_toLower_keyword (c : Char)
    (h : c.toLower ∈ ['e', 'x', 'i', 't', 'q', 'u']) :
    isPySpace c = false := by
  by_contra hc
  rw [Bool.not_eq_false] at hc
  rw [isPySpace_toLower_fix c hc] at h
  simp only [isPySpace, Bool.or_eq_true, beq_iff_eq] at hc
  rcases hc with ((((rfl | rfl) | rfl) | rfl) | rfl) | rfl <;> simp_all

/-- A lowercased character of an exit keyword lies among the keyword
letters. -/
lemma mem_keyword_letters {x : Char}
    (hx : x ∈ "exit".data ∨ x ∈ "quit".data) :
    x ∈ ['e', 'x', 'i', 't', 'q', 'u'] := by
  rcases hx with hx | hx <;> · simp at hx ⊢; tauto

/-- The range list of `range(max_retries)` as an interval list. -/
lemma pyRange_eq_range' (R : Int) : pyRange R = List.range' 0 R.toNat := by
  simp [pyRange, List.range_eq_range']

/-- C1: for `max_retries = R ≥ 1` and a remote operation that raises on
every invocation, `call_api_with_backoff` invokes the operation exactly `R`
times and propagates the final invocation's exception to the caller. -/
theorem call_api_all_failures (op : Nat → Except ε α) (err : Nat → ε)
    (R D : Int) (hR : 1 ≤ R) (hop : ∀ j, op j = .error (err j)) :
    (call_api_with_backoff op R D).calls = R.toNat ∧
    (call_api_with_backoff op R D).outcome = .raised (err (R.toNat - 1)) := by
  have h := backoffLoop_allFail op err hop R R.toNat (by omega) 0 D (by omega)
  unfold call_api_with_backoff
  rw [pyRange_eq_range', h]
  simp

theorem call_api_all_failures_witness :
    (1 : Int) ≤ 3 ∧ (∀ j, opAlwaysFails j = .error j) ∧
    (call_api_with_backoff opAlwaysFails 3 1).calls = (3 : Int).toNat ∧
    (call_api_with_backoff opAlwaysFails 3 1).outcome =
      .raised ((3 : Int).toNat - 1) :=
  ⟨by decide, fun _ => rfl,
    call_api_all_failures opAlwaysFails (fun j => j) 3 1 (by decide)
      (fun _ => rfl)⟩

/-- C2: for `1 ≤ k ≤ max_retries - 1`, when the first `k` invocations all
raise (so that a `k`-th retry happens), the delay slept immediately before
the `k`-th retry is exactly `initial_delay * 2 ^ (k - 1)`. -/
theorem call_api_kth_retry_delay (op : Nat → Except ε α) (err : Nat → ε)
    (R D : Int) (k : Nat) (hk : 1 ≤ k) (hkR : (k : Int) ≤ R - 1)
    (hop : ∀ j, j < k → op j = .error (err j)) :
    (call_api_with_backoff op R D).sleeps[k - 1]? = some (D * 2 ^ (k - 1)) := by
  unfold call_api_with_backoff
  rw [pyRange_eq_range']
  have hlen : k ≤ (backoffLoop op R D (List.range' 0 R.toNat)).sleeps.length :=
    backoffLoop_sleeps_length op err R k 0 D R.toNat
      (fun j _ h2 => hop j (by omega)) (by omega) (by omega)
  exact backoffLoop_sleeps_getElem op R (List.range' 0 R.toNat) D (k - 1)
    (by omega)

theorem call_api_kth_retry_delay_witness :
    1 ≤ 2 ∧ ((2 : Nat) : Int) ≤ 5 - 1 ∧
    (∀ j, j < 2 → opAlwaysFails j = .error j) ∧
    (call_api_with_backoff opAlwaysFails 5 1).sleeps[2 - 1]? =
      some (1 * 2 ^ (2 - 1)) :=
  ⟨by decide, by decide, fun _ _ => rfl,
    call_api_kth_retry_delay opAlwaysFails (fun j => j) 5 1 2 (by decide)
      (by decide) (fun _ _ => rfl)⟩

/-- C3: for `max_retries ≥ 1` and a remote operation that returns on its
first invocation, `call_api_with_backoff` invokes the operation exactly
once, sleeps nothing, and returns that invocation's response. -/
theorem call_api_first_success (op : Nat → Except ε α) (R D : Int) (r : α)
    (hR : 1 ≤ R) (h0 : op 0 = .ok r) :
    call_api_with_backoff op R D = ⟨.success r, 1, []⟩ := by
  unfold call_api_with_backoff
  rw [pyRange_eq_range']
  obtain ⟨m, hm⟩ : ∃ m, R.toNat = m + 1 := ⟨R.toNat - 1, by omega⟩
  rw [hm]
  have hcons : List.range' 0 (m + 1) = 0 :: List.range' 1 m := rfl
  rw [hcons, backoffLoop_ok op R D 0 _ r h0]

theorem call_api_first_success_witness :
    (1 : Int) ≤ 5 ∧ opImmediate 0 = .ok 7 ∧
    call_api_with_backoff opImmediate 5 1 = ⟨.success 7, 1, []⟩ :=
  ⟨by decide, rfl, call_api_first_success opImmediate 5 1 7 (by decide) rfl⟩

/-- C4, evaluated at the failing inputs: with `max_retries = 0` (or a
negative value) the code neither rejects the call nor attempts the
operation once; the `for` loop body never runs and the function silently
returns `None` after zero invocations of the operation, contradicting the
claim and the function's own docstring (`Raises: ... if the API call fails
after all retries`). -/
theorem call_api_zero_retries_returns_none :
    call_api_with_backoff opAlwaysFails 0 1 = ⟨.noneReturned, 0, []⟩ ∧
    call_api_with_backoff opImmediate 0 1 = ⟨.noneReturned, 0, []⟩ ∧
    call_api_with_backoff opAlwaysFails (-3) 1 = ⟨.noneReturned, 0, []⟩ := by
  decide

/-- C8: for `initial_delay = 1` and `max_retries = 3`, an operation that
raises on its first two invocations and returns on the third makes
`call_api_with_backoff` sleep `1` then `2` time units (total `3`) and
return the third invocation's response. -/
theorem call_api_scenario_two_failures (op : Nat → Except ε α) (e0 e1 : ε)
    (r : α) (h0 : op 0 = .error e0) (h1 : op 1 = .error e1)
    (h2 : op 2 = .ok r) :
    call_api_with_backoff op 3 1 = ⟨.success r, 3, [1, 2]⟩ ∧
    (call_api_with_backoff op 3 1).sleeps.sum = 1 + 2 := by
  have hmain : call_api_with_backoff op 3 1 = ⟨.success r, 3, [1, 2]⟩ := by
    unfold call_api_with_backoff
    rw [show pyRange 3 = [0, 1, 2] from rfl,
      backoffLoop_error_retry op 3 1 0 _ e0 h0 (by norm_num),
      backoffLoop_error_retry op 3 (1 * 2) 1 _ e1 h1 (by norm_num),
      backoffLoop_ok op 3 (1 * 2 * 2) 2 _ r h2]
    norm_num
  exact ⟨hmain, by rw [hmain]; norm_num⟩

theorem call_api_scenario_two_failures_witness :
    opFailsTwice 0 = .error 0 ∧ opFailsTwice 1 = .error 1 ∧
    opFailsTwice 2 = .ok 42 ∧
    call_api_with_backoff opFailsTwice 3 1 = ⟨.success 42, 3, [1, 2]⟩ ∧
    (call_api_with_backoff opFailsTwice 3 1).sleeps.sum = 1 + 2 :=
  ⟨rfl, rfl, rfl,
    (call_api_scenario_two_failures opFailsTwice 0 1 42 rfl rfl rfl).1,
    (call_api_scenario_two_failures opFailsTwice 0 1 42 rfl rfl rfl).2⟩

/-- C9: for `1 ≤ k ≤ max_retries` and a remote operation that raises on
its first `k - 1` invocations and returns on the `k`-th,
`call_api_with_backoff` invokes the operation exactly `k` times, sleeps a
total of `initial_delay * (2 ^ (k - 1) - 1)` time units, and returns the
`k`-th invocation's response. -/
theorem call_api_kth_success (op : Nat → Except ε α) (err : Nat → ε)
    (r : α) (R D : Int) (k : Nat) (hk : 1 ≤ k) (hkR : (k : Int) ≤ R)
    (hop : ∀ j, j + 1 < k → op j = .error (err j))
    (hs : op (k - 1) = .ok r) :
    (call_api_with_backoff op R D).outcome = .success r ∧
    (call_api_with_backoff op R D).calls = k ∧
    (call_api_with_backoff op R D).sleeps.sum = D * (2 ^ (k - 1) - 1) := by
  unfold call_api_with_backoff
  rw [pyRange_eq_range']
  have h := backoffLoop_succeeds op err r R (k - 1) 0 D R.toNat
    (fun j _ h2 => hop j (by omega))
    (by rw [Nat.zero_add]; exact hs)
    (by omega) (by omega)
  rw [h]
  refine ⟨rfl, by show k - 1 + 1 = k; omega, ?_⟩
  show (geomDelays D (k - 1)).sum = D * (2 ^ (k - 1) - 1)
  exact geomDelays_sum (k - 1) D

theorem call_api_kth_success_witness :
    1 ≤ 3 ∧ ((3 : Nat) : Int) ≤ 5 ∧
    (∀ j, j + 1 < 3 → opFailsTwice j = .error j) ∧
    opFailsTwice (3 - 1) = .ok 42 ∧
    (call_api_with_backoff opFailsTwice 5 1).outcome = .success 42 ∧
    (call_api_with_backoff opFailsTwice 5 1).calls = 3 ∧
    (call_api_with_backoff opFailsTwice 5 1).sleeps.sum =
      1 * (2 ^ (3 - 1) - 1) := by
  have hop : ∀ j, j + 1 < 3 → opFailsTwice j = .error j := by
    intro j hj
    unfold opFailsTwice
    rw [if_pos (by omega)]
  have h := call_api_kth_success opFailsTwice (fun j => j) 42 5 1 3
    (by decide) (by decide) hop rfl
  exact ⟨by decide, by decide, hop, rfl, h.1, h.2.1, h.2.2⟩

/-- C5: an input line that is empty or consists only of whitespace makes
the iteration continue after the local empty-input reply; the remote
operation is not invoked and nothing is slept. -/
theorem run_chatbot_whitespace_no_invoke (op : Nat → Except ε α)
    (line : List Char) (h : ∀ c ∈ line, isPySpace c = true) :
    runChatbotIteration op line = ⟨.emptyContinue, 0, []⟩ := by
  have hstrip := pyStrip_allSpace line h
  have hls : loopStep line = .continueLoop := by
    unfold loopStep
    rw [hstrip]
    rfl
  simp [runChatbotIteration, hls]

theorem run_chatbot_whitespace_no_invoke_witness :
    (∀ c ∈ " \t ".data, isPySpace c = true) ∧
    runChatbotIteration opAlwaysFails " \t ".data =
      ⟨.emptyContinue, 0, []⟩ :=
  ⟨by decide,
    run_chatbot_whitespace_no_invoke opAlwaysFails " \t ".data (by decide)⟩

/-- C6: an input line that is exactly `exit` or `quit` in any letter case
ends the loop at the exit check; the remote operation is not invoked. -/
theorem run_chatbot_exit_keyword (op : Nat → Except ε α) (line : List Char)
    (h : pyLower line = "exit".data ∨ pyLower line = "quit".data) :
    runChatbotIteration op line = ⟨.exitKeyword, 0, []⟩ := by
  have hnos : ∀ c ∈ line, isPySpace c = false := by
    intro c hc
    apply noSpace_of_toLower_keyword
    apply mem_keyword_letters
    rcases h with h | h
    · exact Or.inl (h ▸ List.mem_map_of_mem Char.toLower hc)
    · exact Or.inr (h ▸ List.mem_map_of_mem Char.toLower hc)
  have hstrip := pyStrip_eq_self_of_noSpace line hnos
  have hls : loopStep line = .exitLoop := by
    unfold loopStep
    rw [hstrip, if_pos h]
  simp [runChatbotIteration, hls]

theorem run_chatbot_exit_keyword_witness :
    (pyLower "ExIt".data = "exit".data ∨ pyLower "ExIt".data = "quit".data) ∧
    runChatbotIteration opAlwaysFails "ExIt".data = ⟨.exitKeyword, 0, []⟩ :=
  ⟨by decide,
    run_chatbot_exit_keyword opAlwaysFails "ExIt".data (by decide)⟩

/-- C10: an input line whose stripped form is `exit` or `quit` in any
letter case — for example a keyword surrounded by spaces — also ends the
loop at the exit check, because line 93 strips the input before line 96
compares it with the keywords. -/
theorem run_chatbot_stripped_exit_keyword (op : Nat → Except ε α)
    (line : List Char)
    (h : pyLower (pyStrip line) = "exit".data ∨
      pyLower (pyStrip line) = "quit".data) :
    runChatbotIteration op line = ⟨.exitKeyword, 0, []⟩ := by
  have hls : loopStep line = .exitLoop := by
    unfold loopStep
    rw [if_pos h]
  simp [runChatbotIteration, hls]

theorem run_chatbot_stripped_exit_keyword_witness :
    (pyLower (pyStrip "  Exit  ".data) = "exit".data ∨
      pyLower (pyStrip "  Exit  ".data) = "quit".data) ∧
    runChatbotIteration opAlwaysFails "  Exit  ".data =
      ⟨.exitKeyword, 0, []⟩ :=
  ⟨by decide,
    run_chatbot_stripped_exit_keyword opAlwaysFails "  Exit  ".data
      (by decide)⟩

/-- C7: when every invocation of the remote operation raises, the call
made by the loop (`max_retries=5, initial_delay=1`) ends with the raised
exception of the fifth invocation — a propagated exception, not a returned
value — and the loop iteration catches it and breaks instead of
continuing. -/
theorem run_chatbot_exhausted_failure_breaks (op : Nat → Except ε α)
    (err : Nat → ε) (line msg : List Char)
    (hop : ∀ j, op j = .error (err j))
    (hline : loopStep line = .invokeApi msg) :
    (call_api_with_backoff op 5 1).outcome = .raised (err 4) ∧
    runChatbotIteration op line = ⟨.errorBreak, 5, [1, 2, 4, 8]⟩ := by
  have hcall : call_api_with_backoff op 5 1 =
      ⟨.raised (err 4), 5, [1, 2, 4, 8]⟩ := by
    unfold call_api_with_backoff
    rw [show pyRange 5 = List.range' 0 5 by decide]
    rw [backoffLoop_allFail op err hop 5 5 (by omega) 0 1 (by norm_num)]
    norm_num [geomDelays]
  refine ⟨by rw [hcall], ?_⟩
  simp [runChatbotIteration, hline, hcall]

theorem run_chatbot_exhausted_failure_breaks_witness :
    (∀ j, opAlwaysFails j = .error j) ∧
    loopStep "hi".data = .invokeApi "hi".data ∧
    (call_api_with_backoff opAlwaysFails 5 1).outcome = .raised 4 ∧
    runChatbotIteration opAlwaysFails "hi".data =
      ⟨.errorBreak, 5, [1, 2, 4, 8]⟩ := by
  have h := run_chatbot_exhausted_failure_breaks opAlwaysFails (fun j => j)
    "hi".data "hi".data (fun _ => rfl) (by decide)
  exact ⟨fun _ => rfl, by decide, h.1, h.2⟩
